import Mathlib

/-!
Verification of the `oncearound` auction core against its specification.

The data model and the operations `AuctionState.__init__`, `reset` and
`start_next_round` are embedded from `src/auction/state.py`; the request
and response validation shapes are embedded from `src/auction/models.py`.
The method bodies of `apply_bid`, `set_human_bid`, `settle_round` and
`finalize` are stubs (`...`) in the source, so those operations are
modelled from the spec (each such definition says so in its doc comment).
Python `int` is embedded as `Int`; Python dicts with string keys are
embedded as association lists so that key sets are observable.
-/

namespace Oncearound

/-- Phases of a round, from `state.py`:
`Phase = Literal["IDLE", "TURN_HUMAN", "TURN_AI1", "TURN_AI2", "TURN_AI3", "SETTLE"]`. -/
inductive Phase where
  | IDLE
  | TURN_HUMAN
  | TURN_AI1
  | TURN_AI2
  | TURN_AI3
  | SETTLE
deriving DecidableEq, Repr

/-- The `HumanPendingBid` TypedDict from `state.py`. -/
structure HumanPendingBid where
  submit_id : String
  round_id : Int
  turn_id : Int
  amount : Int
deriving DecidableEq, Repr

/-- Structured audit events appended to `history`.  The spec (§3) says the
history records every accepted bid and every settlement. -/
inductive Event where
  | bidAccepted (round_id : Int) (participant : String) (amount : Int)
  | settlement (round_id : Int) (winner : Option String) (price : Int)
deriving DecidableEq, Repr

/-- Final results record; shape from the spec §6:
`{winners_by_round, totals: participant → {properties, spent}, champion}`. -/
structure ResultsResponse where
  winners_by_round : List (Int × Option String × Int)
  totals : List (String × Int × Int)
  champion : String
deriving DecidableEq, Repr

/-- The mutable fields of `AuctionState` from `state.py` (the asyncio lock and
the logger carry no auction data and are not part of the embedding). -/
structure AuctionState where
  rounds_total : Int
  initial_budget : Int
  round_id : Int
  turn_id : Int
  phase : Phase
  sequence : List String
  budgets : List (String × Int)
  properties : List (String × Int)
  current_high : Int
  current_winner : Option String
  human_pending_bid : Option HumanPendingBid
  history : List Event
  results : Option ResultsResponse
deriving DecidableEq, Repr

/-- `AuctionState.__init__` from `state.py`: construction-time values. -/
def mkAuctionState (rounds_total : Int := 10) (initial_budget : Int := 1000) :
    AuctionState :=
  { rounds_total := rounds_total
    initial_budget := initial_budget
    round_id := 0
    turn_id := 0
    phase := .IDLE
    sequence := ["human", "ai1", "ai2", "ai3"]
    budgets := ["human", "ai1", "ai2", "ai3"].map (fun pid => (pid, initial_budget))
    properties := ["human", "ai1", "ai2", "ai3"].map (fun pid => (pid, 0))
    current_high := 0
    current_winner := none
    human_pending_bid := none
    history := []
    results := none }

/-- `AuctionState.reset` from `state.py`: restores every mutable field to its
starting value, rebuilding `budgets` and `properties` from `self.sequence`
and `self.initial_budget`.  The method body has no error branch. -/
def reset (s : AuctionState) : AuctionState :=
  { s with
    round_id := 0
    turn_id := 0
    phase := .IDLE
    budgets := s.sequence.map (fun pid => (pid, s.initial_budget))
    properties := s.sequence.map (fun pid => (pid, 0))
    current_high := 0
    current_winner := none
    human_pending_bid := none
    history := []
    results := none }

/-- Outcome reported by `start_next_round`: the source logs a warning and
returns without mutation when the next round would exceed `rounds_total`,
and otherwise advances the round. -/
inductive StartRoundOutcome where
  | started
  | roundsExhausted
deriving DecidableEq, Repr

/-- `AuctionState.start_next_round` from `state.py`.  The source checks only
`next_round > rounds_total`; it performs no phase check. -/
def start_next_round (s : AuctionState) : AuctionState × StartRoundOutcome :=
  let next_round := s.round_id + 1
  if next_round > s.rounds_total then
    (s, .roundsExhausted)
  else
    ({ s with
        round_id := next_round
        turn_id := 0
        phase := .TURN_HUMAN
        current_high := 0
        current_winner := none
        human_pending_bid := none },
     .started)

/-- The `BidRequest` record fields from `models.py`. -/
structure BidRequest where
  round_id : Int
  turn_id : Int
  amount : Int
  submit_id : String
deriving DecidableEq, Repr

/-- The pydantic field validation of `BidRequest` from `models.py`:
`round_id: Field(gt=0)`, `turn_id: Field(gt=0)`, `amount: Field(ge=0)`,
`submit_id: Field(min_length=1)`. -/
def bidRequestValid (r : BidRequest) : Bool :=
  (r.round_id > 0) && (r.turn_id > 0) && (r.amount ≥ 0) && (r.submit_id.length ≥ 1)

/-- The turn phase corresponding to a sequence index:
turn 0 is `TURN_HUMAN`, turns 1..3 are `TURN_AI1..TURN_AI3`
(the phase order documented at the top of `state.py` and in spec §4.1). -/
def turnPhase (i : Int) : Option Phase :=
  if i = 0 then some .TURN_HUMAN
  else if i = 1 then some .TURN_AI1
  else if i = 2 then some .TURN_AI2
  else if i = 3 then some .TURN_AI3
  else none

/-- Advance `turn_id` and `phase` to the next participant of `sequence`, or to
`SETTLE` after the last participant (spec §4.1, `apply_bid`). -/
def advanceTurn (s : AuctionState) : AuctionState :=
  if s.turn_id + 1 < (s.sequence.length : Int) then
    { s with
        turn_id := s.turn_id + 1
        phase := (turnPhase (s.turn_id + 1)).getD .SETTLE }
  else
    { s with phase := .SETTLE }

/-- Pointwise update of an association list at a key, preserving the key set
(the embedding of `d[k] = f(d[k])` on a Python dict). -/
def updateAL (m : List (String × Int)) (k : String) (f : Int → Int) :
    List (String × Int) :=
  m.map (fun p => if p.1 = k then (p.1, f p.2) else p)

/-- Outcome reported by `apply_bid` (spec §4.1 and §7): an accepted bid, a
forfeited turn (failed amount rule), or an illegal phase/turn rejection. -/
inductive ApplyBidOutcome where
  | accepted
  | forfeited
  | illegalTurn
deriving DecidableEq, Repr

/-- Modelled from the spec: the body of `AuctionState.apply_bid` is a stub
(`...`) in `state.py`.  Spec §4.1: validates that the state is in the turn
phase matching `turn_id` and that `participant` is `sequence[turn_id]`
(violation: illegal phase/turn, rejected with no mutation, §7(1)); validates
the amount rule `amount > current_high ∧ amount ≤ budget` (§3(c)); on success
updates `current_high`/`current_winner`, advances turn and phase, and appends
an audit event; a bid failing the amount rule is a pass: the turn still
advances with the leaderboard unchanged. -/
def apply_bid (s : AuctionState) (participant : String) (amount : Int) :
    AuctionState × ApplyBidOutcome :=
  match turnPhase s.turn_id with
  | none => (s, .illegalTurn)
  | some ph =>
    if s.phase = ph ∧ s.sequence.get? s.turn_id.toNat = some participant then
      let budget := (s.budgets.lookup participant).getD 0
      if amount > s.current_high ∧ amount ≤ budget then
        (advanceTurn
          { s with
              current_high := amount
              current_winner := some participant
              history := s.history ++ [.bidAccepted s.round_id participant amount] },
         .accepted)
      else
        (advanceTurn s, .forfeited)
    else
      (s, .illegalTurn)

/-- Outcome reported by `settle_round` (spec §4.1 and §7). -/
inductive SettleOutcome where
  | settled
  | illegalPhase
deriving DecidableEq, Repr

/-- Modelled from the spec: the body of `AuctionState.settle_round` is a stub
(`...`) in `state.py`.  Spec §4.1: precondition `phase == SETTLE` (violation:
illegal phase, no mutation); if `current_winner` is set, deduct `current_high`
from that participant's budget and increment their property count; append a
settlement event (price 0 and winner none for an unsold lot); transition
`phase` to `IDLE` if `round_id == rounds_total`, otherwise leave the state
ready for `start_next_round`. -/
def settle_round (s : AuctionState) : AuctionState × SettleOutcome :=
  if s.phase = .SETTLE then
    let price : Int := match s.current_winner with
      | some _ => s.current_high
      | none => 0
    let s1 := match s.current_winner with
      | some w =>
          { s with
              budgets := updateAL s.budgets w (fun b => b - s.current_high)
              properties := updateAL s.properties w (fun c => c + 1) }
      | none => s
    let s2 := { s1 with
                  history := s1.history ++ [.settlement s.round_id s.current_winner price] }
    if s.round_id = s.rounds_total then
      ({ s2 with phase := .IDLE }, .settled)
    else
      (s2, .settled)
  else
    (s, .illegalPhase)

/-- Outcome reported by `set_human_bid` (spec §4.1 and §7). -/
inductive SubmitOutcome where
  | accepted
  | duplicate
  | staleTurn
  | illegalPhase
  | invalidAmount
deriving DecidableEq, Repr

/-- Modelled from the spec: the body of `AuctionState.set_human_bid` is a stub
(`...`) in `state.py`.  Spec §4.1 `submit_human_bid`: preconditions
`phase == TURN_HUMAN`, `request.round_id == round_id`,
`request.turn_id == turn_id`; a duplicate `submit_id` for the same turn is
accepted idempotently without double effect; otherwise the request is stored
in `human_pending_bid` and the same acceptance logic as `apply_bid` runs for
the human participant. -/
def set_human_bid (s : AuctionState) (req : BidRequest) :
    AuctionState × SubmitOutcome :=
  if s.phase ≠ .TURN_HUMAN then
    (s, .illegalPhase)
  else if req.round_id ≠ s.round_id ∨ req.turn_id ≠ s.turn_id then
    (s, .staleTurn)
  else if (match s.human_pending_bid with
           | some pb =>
               pb.submit_id = req.submit_id && pb.round_id = req.round_id &&
                 pb.turn_id = req.turn_id
           | none => false : Bool) then
    (s, .duplicate)
  else
    let s1 := { s with
                  human_pending_bid :=
                    some ⟨req.submit_id, req.round_id, req.turn_id, req.amount⟩ }
    let r := apply_bid s1 "human" req.amount
    (r.1, match r.2 with
          | .accepted => .accepted
          | _ => .invalidAmount)

/-- Totals per participant for the final results (spec §4.1 `finalize` and §6):
for each participant, the pair (properties won, budget spent). -/
def computeTotals (s : AuctionState) : List (String × Int × Int) :=
  s.sequence.map (fun pid =>
    (pid, (s.properties.lookup pid).getD 0,
     s.initial_budget - (s.budgets.lookup pid).getD 0))

/-- The per-round winners list, read off the settlement events of `history`
(spec §6 `winners_by_round`). -/
def winnersByRound (h : List Event) : List (Int × Option String × Int) :=
  h.filterMap (fun e =>
    match e with
    | .settlement r w p => some (r, w, p)
    | _ => none)

/-- The champion (spec §4.1 `finalize`): the participant with the most
properties, tie-broken by highest remaining budget, then by earlier position
in `sequence`. -/
def champion (s : AuctionState) : String :=
  match s.sequence with
  | [] => ""
  | p :: ps =>
    ps.foldl (fun best q =>
      let bp := (s.properties.lookup best).getD 0
      let qp := (s.properties.lookup q).getD 0
      if qp > bp then q
      else if qp = bp ∧
          (s.budgets.lookup q).getD 0 > (s.budgets.lookup best).getD 0 then q
      else best) p

/-- Modelled from the spec: the body of `AuctionState.finalize` is a stub
(`...`) in `state.py`.  Spec §4.1: precondition all rounds settled (the final
round's settlement has moved `phase` back to `IDLE` with
`round_id == rounds_total`); computes the results on first call only and
stores them; subsequent calls return the stored result unchanged. -/
def finalize (s : AuctionState) : AuctionState × Option ResultsResponse :=
  match s.results with
  | some r => (s, some r)
  | none =>
    if s.round_id = s.rounds_total ∧ s.phase = .IDLE then
      let r : ResultsResponse :=
        { winners_by_round := winnersByRound s.history
          totals := computeTotals s
          champion := champion s }
      ({ s with results := some r }, some r)
    else
      (s, none)

/-- One Auction Core mutating operation (spec §4.1); `snapshot` is read-only
and omitted. -/
inductive Op where
  | opReset
  | opStartNextRound
  | opSetHumanBid (req : BidRequest)
  | opApplyBid (participant : String) (amount : Int)
  | opSettleRound
  | opFinalize
deriving DecidableEq, Repr

/-- The state after one Auction Core operation. -/
def applyOp (s : AuctionState) : Op → AuctionState
  | .opReset => reset s
  | .opStartNextRound => (start_next_round s).1
  | .opSetHumanBid req => (set_human_bid s req).1
  | .opApplyBid p a => (apply_bid s p a).1
  | .opSettleRound => (settle_round s).1
  | .opFinalize => (finalize s).1

/-- The state after a sequence of Auction Core operations. -/
def runOps (s : AuctionState) (ops : List Op) : AuctionState :=
  ops.foldl applyOp s

/-- The `StateResponse` record fields from `models.py`
(`server_time: datetime` embedded as an integer timestamp). -/
structure StateResponse where
  round_id : Int
  turn_id : Int
  rounds_total : Int
  rounds_remaining : Int
  current_high : Int
  current_winner : Option String
  sequence : List String
  budgets : List (String × Int)
  properties : List (String × Int)
  server_time : Int
deriving DecidableEq, Repr

/-- The pydantic field validation of `StateResponse` from `models.py`:
`round_id: Field(gt=0)`, `turn_id: Field(ge=0)`, `rounds_total: Field(gt=0)`,
`rounds_remaining: Field(ge=0)`, `current_high: Field(ge=0)`. -/
def stateResponseValid (r : StateResponse) : Bool :=
  (r.round_id > 0) && (r.turn_id ≥ 0) && (r.rounds_total > 0) &&
    (r.rounds_remaining ≥ 0) && (r.current_high ≥ 0)

/-- Both configuration fields and the participant list of a state agree with
those of another: the frame that construction fixes forever. -/
def configEq (s t : AuctionState) : Prop :=
  t.rounds_total = s.rounds_total ∧ t.initial_budget = s.initial_budget ∧
    t.sequence = s.sequence

/-- Concrete fixture: the state right after starting round 1 from a fresh
construction (round 1 of 10, phase `TURN_HUMAN`, turn 0, full budgets). -/
def round1State : AuctionState :=
  (start_next_round (mkAuctionState 10 1000)).1

/-- Concrete fixture: a mid-round state (round 1 of 10, phase `TURN_AI1`,
turn 1, full budgets). -/
def midRoundState : AuctionState :=
  { mkAuctionState 10 1000 with round_id := 1, turn_id := 1, phase := .TURN_AI1 }

theorem configEq_refl (s : AuctionState) : configEq s s :=
  ⟨rfl, rfl, rfl⟩

theorem configEq_trans {s t u : AuctionState} (h1 : configEq s t)
    (h2 : configEq t u) : configEq s u :=
  ⟨h2.1.trans h1.1, h2.2.1.trans h1.2.1, h2.2.2.trans h1.2.2⟩

theorem lookup_map_const (c : Int) (p : String) :
    ∀ l : List String, p ∈ l → (l.map (fun pid => (pid, c))).lookup p = some c := by
  intro l
  induction l with
  | nil => intro hp; cases hp
  | cons hd tl ih =>
    intro hp
    by_cases h : p = hd
    · subst h
      simp [List.lookup]
    · have hmem : p ∈ tl := by
        cases hp with
        | head => exact absurd rfl h
        | tail _ hm => exact hm
      simp [List.lookup, h, ih hmem]
      split <;> rfl

/-- **C2.** For every Ledger state with `round_id < rounds_total` and phase in
`{IDLE, SETTLE}`, `start_next_round` increments `round_id` by exactly 1, sets
`turn_id` to 0, sets the phase to `TURN_HUMAN`, resets the per-round
leaderboard (`current_high` to 0, `current_winner` to none) and clears
`human_pending_bid`; all other fields are untouched. -/
theorem c2_start_next_round_effect (s : AuctionState)
    (_hph : s.phase = .IDLE ∨ s.phase = .SETTLE)
    (hr : s.round_id < s.rounds_total) :
    start_next_round s =
      ({ s with
          round_id := s.round_id + 1
          turn_id := 0
          phase := .TURN_HUMAN
          current_high := 0
          current_winner := none
          human_pending_bid := none },
       .started) := by
  have h : ¬ (s.round_id + 1 > s.rounds_total) := by omega
  simp [start_next_round, h]

/-- Witness for C2 at the fresh construction (phase `IDLE`, round 0 of 10). -/
theorem c2_start_next_round_effect_witness :
    start_next_round (mkAuctionState 10 1000) =
      ({ mkAuctionState 10 1000 with
          round_id := (mkAuctionState 10 1000).round_id + 1
          turn_id := 0
          phase := .TURN_HUMAN
          current_high := 0
          current_winner := none
          human_pending_bid := none },
       .started) :=
  c2_start_next_round_effect (mkAuctionState 10 1000) (Or.inl rfl) (by decide)

/-- **C4.** The source's `BidRequest` validation (`models.py`) declares
`turn_id: Field(gt=0)`, so a request with `turn_id = 0` and all other fields
valid is rejected, although the spec requires `turn_id` merely non-negative
and `state.py` documents `turn_id` as ranging over `0..3` with the human
bidding at turn 0: the otherwise-valid request below fails validation while
the same request with `turn_id = 1` passes. -/
theorem c4_turn_zero_rejected :
    bidRequestValid { round_id := 1, turn_id := 0, amount := 50, submit_id := "s1" } = false ∧
    bidRequestValid { round_id := 1, turn_id := 1, amount := 50, submit_id := "s1" } = true := by
  decide

/-- **C5.** For every Ledger state in which `round_id + 1` would exceed
`rounds_total`, `start_next_round` is a no-op that reports the
rounds-exhausted condition and mutates no Ledger field. -/
theorem c5_rounds_exhausted (s : AuctionState)
    (h : s.rounds_total < s.round_id + 1) :
    start_next_round s = (s, .roundsExhausted) := by
  have hgt : s.round_id + 1 > s.rounds_total := h
  simp [start_next_round, hgt]

/-- Witness for C5 with `rounds_total = 0`, where round 1 already exceeds
the total. -/
theorem c5_rounds_exhausted_witness :
    start_next_round (mkAuctionState 0 1000) = (mkAuctionState 0 1000, .roundsExhausted) :=
  c5_rounds_exhausted (mkAuctionState 0 1000) (by decide)

/-- **C7.** For every Ledger state whose phase is not `SETTLE`, `settle_round`
fails with the illegal-phase condition and returns the state unchanged
(every field, budgets and properties and history included). -/
theorem c7_settle_illegal_phase (s : AuctionState) (h : s.phase ≠ .SETTLE) :
    settle_round s = (s, .illegalPhase) := by
  simp [settle_round, h]

/-- Witness for C7 at a mid-round state in phase `TURN_AI1`. -/
theorem c7_settle_illegal_phase_witness :
    settle_round midRoundState = (midRoundState, .illegalPhase) :=
  c7_settle_illegal_phase midRoundState (by decide)

/-- **C10.** The snapshot response validation requires `round_id > 0`, so a
valid `StateResponse` always has `round_id ≥ 1`: the pre-start Ledger state
(`round_id = 0`) cannot be represented as a valid snapshot response. -/
theorem c10_snapshot_requires_started (r : StateResponse)
    (h : stateResponseValid r = true) : 1 ≤ r.round_id := by
  simp [stateResponseValid] at h
  omega

/-- Witness for C10 at a concrete valid snapshot response. -/
theorem c10_snapshot_requires_started_witness :
    (1 : Int) ≤ (StateResponse.round_id
      { round_id := 1, turn_id := 0, rounds_total := 10, rounds_remaining := 9,
        current_high := 0, current_winner := none,
        sequence := ["human", "ai1", "ai2", "ai3"], budgets := [],
        properties := [], server_time := 0 }) :=
  c10_snapshot_requires_started _ (by decide)

/-- **C1 counterexample.** The claim states that `start_next_round` invoked in
a phase outside `{IDLE, SETTLE}` (here `TURN_AI1`) with
`round_id < rounds_total` fails and leaves every field unchanged.  The source
performs no phase check: at the mid-round state below the call succeeds and
mutates the state (it advances `round_id` to 2 and the phase to
`TURN_HUMAN`). -/
theorem c1_counterexample :
    midRoundState.phase ≠ .IDLE ∧ midRoundState.phase ≠ .SETTLE ∧
    midRoundState.round_id < midRoundState.rounds_total ∧
    (start_next_round midRoundState).2 = .started ∧
    (start_next_round midRoundState).1 ≠ midRoundState ∧
    (start_next_round midRoundState).1.round_id = 2 ∧
    (start_next_round midRoundState).1.phase = .TURN_HUMAN := by
  decide

/-- **C1 amended.** `start_next_round` checks only the round counter, never
the phase: for every state with `round_id < rounds_total`, whatever the
phase, the call succeeds and advances the round (`round_id + 1`, `turn_id`
0, phase `TURN_HUMAN`, leaderboard and pending human bid reset). -/
theorem c1_no_phase_check (s : AuctionState)
    (hr : s.round_id < s.rounds_total) :
    start_next_round s =
      ({ s with
          round_id := s.round_id + 1
          turn_id := 0
          phase := .TURN_HUMAN
          current_high := 0
          current_winner := none
          human_pending_bid := none },
       .started) := by
  have h : ¬ (s.round_id + 1 > s.rounds_total) := by omega
  simp [start_next_round, h]

/-- Witness for the amended C1 at the mid-round state in phase `TURN_AI1`. -/
theorem c1_no_phase_check_witness :
    midRoundState.round_id < midRoundState.rounds_total ∧
    start_next_round midRoundState =
      ({ midRoundState with
          round_id := midRoundState.round_id + 1
          turn_id := 0
          phase := .TURN_HUMAN
          current_high := 0
          current_winner := none
          human_pending_bid := none },
       .started) :=
  ⟨by decide, c1_no_phase_check midRoundState (by decide)⟩

/-- **C3 counterexample.** The claim quantifies over every participant whose
bid fails the amount rule and states the turn still advances.  At the start
of round 1 it is the human's turn; participant `ai1`'s bid of 0 fails the
amount rule (0 is not strictly greater than `current_high = 0`), yet
`apply_bid` rejects it as an illegal turn and the state does not advance
(it is returned unchanged). -/
theorem c3_counterexample :
    ¬ ((0 : Int) > round1State.current_high ∧
       (0 : Int) ≤ (round1State.budgets.lookup "ai1").getD 0) ∧
    apply_bid round1State "ai1" 0 = (round1State, .illegalTurn) := by
  decide

/-- **C3 amended.** For every state in a turn phase consistent with its
`turn_id`, and for the participant whose turn it is (`sequence[turn_id]`), a
bid failing the amount rule (not strictly above `current_high`, or above the
bidder's remaining budget) is treated as a pass: `apply_bid` reports a
forfeited turn and advances the turn — `turn_id + 1` and the next turn phase
when another participant remains, phase `SETTLE` after the last — while
`current_high` and `current_winner` are left unchanged. -/
theorem c3_forfeit_advances (s : AuctionState) (p : String) (a : Int)
    (hph : turnPhase s.turn_id = some s.phase)
    (hseq : s.sequence.get? s.turn_id.toNat = some p)
    (hamt : ¬ (a > s.current_high ∧ a ≤ (s.budgets.lookup p).getD 0)) :
    apply_bid s p a = (advanceTurn s, .forfeited) ∧
    (advanceTurn s).current_high = s.current_high ∧
    (advanceTurn s).current_winner = s.current_winner ∧
    (s.turn_id + 1 < (s.sequence.length : Int) →
      (advanceTurn s).turn_id = s.turn_id + 1 ∧
      (advanceTurn s).phase = (turnPhase (s.turn_id + 1)).getD .SETTLE) ∧
    (¬ (s.turn_id + 1 < (s.sequence.length : Int)) →
      (advanceTurn s).phase = .SETTLE) := by
  refine ⟨?_, ?_, ?_, ?_, ?_⟩
  · unfold apply_bid
    rw [hph]
    have hseq2 : s.sequence[s.turn_id.toNat]? = some p := by
      simpa [List.get?_eq_getElem?] using hseq
    simp [hseq2, hamt]
  · unfold advanceTurn
    split <;> rfl
  · unfold advanceTurn
    split <;> rfl
  · intro hlt
    unfold advanceTurn
    rw [if_pos hlt]
    exact ⟨rfl, rfl⟩
  · intro hge
    unfold advanceTurn
    rw [if_neg hge]

/-- Witness for the amended C3: the human bids 0 at the start of round 1
(`current_high = 0`, so the bid is not strictly greater) and forfeits. -/
theorem c3_forfeit_advances_witness :
    apply_bid round1State "human" 0 = (advanceTurn round1State, .forfeited) :=
  (c3_forfeit_advances round1State "human" 0 (by decide) (by decide) (by decide)).1

/-- **C6.** For every Ledger state, `reset` restores all mutable fields to
construction-time values — counters zero, phase `IDLE`, every participant's
budget back to `initial_budget` and property count 0, leaderboard and
pending bid cleared, history empty, results none — while the configuration
(`rounds_total`, `initial_budget`, `sequence`) is untouched; `reset` is a
total function with no error branch. -/
theorem c6_reset_restores (s : AuctionState) :
    (reset s).round_id = 0 ∧ (reset s).turn_id = 0 ∧ (reset s).phase = .IDLE ∧
    (∀ p, p ∈ s.sequence →
      (reset s).budgets.lookup p = some s.initial_budget ∧
      (reset s).properties.lookup p = some 0) ∧
    (reset s).current_high = 0 ∧ (reset s).current_winner = none ∧
    (reset s).human_pending_bid = none ∧ (reset s).history = [] ∧
    (reset s).results = none ∧
    (reset s).rounds_total = s.rounds_total ∧
    (reset s).initial_budget = s.initial_budget ∧
    (reset s).sequence = s.sequence := by
  refine ⟨rfl, rfl, rfl, ?_, rfl, rfl, rfl, rfl, rfl, rfl, rfl, rfl⟩
  intro p hp
  exact ⟨lookup_map_const _ _ _ hp, lookup_map_const _ _ _ hp⟩

/-- Witness for C6: resetting the mid-round state restores the human's
budget and property count. -/
theorem c6_reset_restores_witness :
    (reset midRoundState).budgets.lookup "human" =
      some midRoundState.initial_budget ∧
    (reset midRoundState).properties.lookup "human" = some 0 :=
  (c6_reset_restores midRoundState).2.2.2.1 "human" (by decide)

theorem advanceTurn_config (s : AuctionState) : configEq s (advanceTurn s) := by
  unfold advanceTurn
  split <;> exact ⟨rfl, rfl, rfl⟩

theorem reset_config (s : AuctionState) : configEq s (reset s) :=
  ⟨rfl, rfl, rfl⟩

theorem start_next_round_config (s : AuctionState) :
    configEq s (start_next_round s).1 := by
  unfold start_next_round
  dsimp only
  split <;> exact ⟨rfl, rfl, rfl⟩

theorem apply_bid_config (s : AuctionState) (p : String) (a : Int) :
    configEq s (apply_bid s p a).1 := by
  unfold apply_bid
  split
  · exact configEq_refl s
  · dsimp only
    split
    · split
      · exact configEq_trans ⟨rfl, rfl, rfl⟩ (advanceTurn_config _)
      · exact advanceTurn_config s
    · exact configEq_refl s

theorem settle_round_config (s : AuctionState) :
    configEq s (settle_round s).1 := by
  unfold settle_round
  dsimp only
  split
  · split <;> split <;> exact ⟨rfl, rfl, rfl⟩
  · exact configEq_refl s

theorem set_human_bid_config (s : AuctionState) (req : BidRequest) :
    configEq s (set_human_bid s req).1 := by
  unfold set_human_bid
  dsimp only
  split
  · exact configEq_refl s
  · split
    · exact configEq_refl s
    · split
      · exact configEq_refl s
      · exact configEq_trans ⟨rfl, rfl, rfl⟩
          (apply_bid_config _ "human" req.amount)

theorem finalize_config (s : AuctionState) : configEq s (finalize s).1 := by
  unfold finalize
  split
  · exact configEq_refl s
  · split
    · exact ⟨rfl, rfl, rfl⟩
    · exact configEq_refl s

theorem applyOp_config (s : AuctionState) (op : Op) :
    configEq s (applyOp s op) := by
  cases op with
  | opReset => exact reset_config s
  | opStartNextRound => exact start_next_round_config s
  | opSetHumanBid req => exact set_human_bid_config s req
  | opApplyBid p a => exact apply_bid_config s p a
  | opSettleRound => exact settle_round_config s
  | opFinalize => exact finalize_config s

theorem runOps_config (s : AuctionState) (ops : List Op) :
    configEq s (runOps s ops) := by
  induction ops generalizing s with
  | nil => exact configEq_refl s
  | cons op rest ih =>
    exact configEq_trans (applyOp_config s op) (ih (applyOp s op))

/-- **C8.** For every sequence of Auction Core operations (`reset`,
`start_next_round`, `set_human_bid`, `apply_bid`, `settle_round`,
`finalize`), the configuration fields `rounds_total` and `initial_budget`
and the participant list `sequence` are never mutated. -/
theorem c8_config_immutable (s : AuctionState) (ops : List Op) :
    (runOps s ops).rounds_total = s.rounds_total ∧
    (runOps s ops).initial_budget = s.initial_budget ∧
    (runOps s ops).sequence = s.sequence :=
  runOps_config s ops

/-- **C9.** After construction, after `reset`, and after every
`start_next_round`, the key lists of the `budgets` and `properties` mappings
are exactly the four distinct participant identifiers of `sequence`:
construction builds both mappings over `["human", "ai1", "ai2", "ai3"]`;
`reset` rebuilds them over `sequence`; `start_next_round` leaves them
untouched. -/
theorem c9_ledger_keys :
    (∀ rt ib : Int,
      (mkAuctionState rt ib).budgets.map Prod.fst = ["human", "ai1", "ai2", "ai3"] ∧
      (mkAuctionState rt ib).properties.map Prod.fst = ["human", "ai1", "ai2", "ai3"]) ∧
    (∀ s : AuctionState, s.sequence = ["human", "ai1", "ai2", "ai3"] →
      (reset s).budgets.map Prod.fst = ["human", "ai1", "ai2", "ai3"] ∧
      (reset s).properties.map Prod.fst = ["human", "ai1", "ai2", "ai3"]) ∧
    (∀ s : AuctionState,
      s.budgets.map Prod.fst = ["human", "ai1", "ai2", "ai3"] →
      s.properties.map Prod.fst = ["human", "ai1", "ai2", "ai3"] →
      (start_next_round s).1.budgets.map Prod.fst = ["human", "ai1", "ai2", "ai3"] ∧
      (start_next_round s).1.properties.map Prod.fst = ["human", "ai1", "ai2", "ai3"]) := by
  refine ⟨?_, ?_, ?_⟩
  · intro rt ib
    exact ⟨rfl, rfl⟩
  · intro s hs
    constructor <;> simp [reset, List.map_map, Function.comp, hs]
  · intro s hb hp
    have h1 : (start_next_round s).1.budgets = s.budgets := by
      unfold start_next_round
      dsimp only
      split <;> rfl
    have h2 : (start_next_round s).1.properties = s.properties := by
      unfold start_next_round
      dsimp only
      split <;> rfl
    rw [h1, h2]
    exact ⟨hb, hp⟩

/-- Witness for C9: the key lists after resetting and after advancing the
round from the mid-round state. -/
theorem c9_ledger_keys_witness :
    (reset midRoundState).budgets.map Prod.fst = ["human", "ai1", "ai2", "ai3"] ∧
    (start_next_round midRoundState).1.properties.map Prod.fst =
      ["human", "ai1", "ai2", "ai3"] :=
  ⟨(c9_ledger_keys.2.1 midRoundState (by decide)).1,
   (c9_ledger_keys.2.2 midRoundState (by decide) (by decide)).2⟩

end Oncearound
